import Mathlib

/-!
Verification of the nodepy-pm installation engine (`lib/install.py`) against
its specification.  The Python source is shallowly embedded: pure helpers
become Lean functions, the stateful `Installer` methods become explicit
state-passing functions over a `PMState` record, external collaborators
(registry client, script maker, lifecycle hooks, pip) are oracle fields of
environment records, and raised Python exceptions become `Except` errors.
-/

deriving instance DecidableEq for Except

namespace NodepyPm

/-- Modelled from the spec: the package manifest filename constant
`PACKAGE_MANIFEST` lives in the `env` module, which is not part of the
sources at hand; the repository's own docstrings fix its value
("The directory must have a `nodepy.json` file"). -/
def PACKAGE_MANIFEST : String := "nodepy.json"

/-- Modelled from the spec: the nested-modules directory constant
`MODULES_DIRECTORY` of the `env` module; the bootstrap script names it
`nodepy_modules`. -/
def MODULES_DIRECTORY : String := "nodepy_modules"

/-- Modelled from the spec: the installed-files ledger filename constant
`INSTALLED_FILES` of the `env` module (the sidecar file written next to the
manifest copy). -/
def INSTALLED_FILES : String := ".nodepy-installed-files"

/-- Modelled from the spec: the develop-mode link marker filename constant
`LINK_FILE` of the `env` module. -/
def LINK_FILE : String := ".nodepy-link"

/-- Membership of a character in a glob character class (the part between
`[` and `]`, with the closing bracket already stripped); `a-b` denotes a
range, a `-` at either end is literal. -/
def classMember : List Char → Char → Bool
  | a :: '-' :: b :: rest, c => (a ≤ c && c ≤ b) || classMember rest c
  | a :: rest, c => (a == c) || classMember rest c
  | [], _ => false

/-- Scan for the closing `]` of a glob character class, returning the class
content and the remainder of the pattern. -/
def findClose : List Char → Option (List Char × List Char)
  | [] => none
  | ']' :: rest => some ([], rest)
  | c :: rest =>
    match findClose rest with
    | none => none
    | some (content, after) => some (c :: content, after)

/-- Decompose the pattern right after a `[`: an optional leading `!`
negates, a `]` in first content position is a literal member, and the class
ends at the next `]`.  Returns `none` when no closing bracket exists (the
`[` is then matched literally). -/
def bracket_split (ps : List Char) : Option (Bool × List Char × List Char) :=
  let (neg, ps1) :=
    match ps with
    | '!' :: t => (true, t)
    | _ => (false, ps)
  match ps1 with
  | ']' :: t =>
    match findClose t with
    | none => none
    | some (content, rest) => some (neg, ']' :: content, rest)
  | _ =>
    match findClose ps1 with
    | none => none
    | some (content, rest) => some (neg, content, rest)

/-- Glob matching of a whole name against a whole pattern, `*` matching any
run of characters (including separators), `?` any single character, and
`[...]` a character class; this is the semantics of Python's
`fnmatch.fnmatch` on a POSIX system, the external matcher the source calls.
The recursion is paced by a fuel argument so that the definition is
structurally recursive and evaluates inside the kernel; every recursive call
strictly decreases `pattern.length + name.length`, so any fuel above that
sum is enough and the out-of-fuel branch is never taken by `fnmatchList`. -/
def fnmatchFuel : Nat → List Char → List Char → Bool
  | 0, _, _ => false
  | fuel + 1, pattern, name =>
    match pattern, name with
    | [], n => n.isEmpty
    | '*' :: ps, [] => fnmatchFuel fuel ps []
    | '*' :: ps, c :: cs =>
      fnmatchFuel fuel ps (c :: cs) || fnmatchFuel fuel ('*' :: ps) cs
    | '?' :: ps, _c :: cs => fnmatchFuel fuel ps cs
    | '?' :: _ps, [] => false
    | '[' :: ps, c :: cs =>
      (match bracket_split ps with
       | some (neg, content, rest) =>
         (neg != classMember content c) && fnmatchFuel fuel rest cs
       | none => ('[' == c) && fnmatchFuel fuel ps cs)
    | '[' :: _ps, [] => false
    | p :: ps, c :: cs => (p == c) && fnmatchFuel fuel ps cs
    | _ :: _ps, [] => false

/-- Glob matching with the fuel fixed above the recursion depth bound. -/
def fnmatchList (pattern name : List Char) : Bool :=
  fnmatchFuel (pattern.length + name.length + 1) pattern name

/-- Python `fnmatch.fnmatch(filename, pattern)` on a POSIX system. -/
def fnmatch (filename pattern : String) : Bool :=
  fnmatchList pattern.toList filename.toList

/-- Python `str.startswith`, phrased over character lists so that it
evaluates inside the kernel. -/
def startswith (s pre : String) : Bool :=
  pre.toList.isPrefixOf s.toList

/-- Python `str.endswith`, phrased over character lists so that it evaluates
inside the kernel. -/
def endswith (s suf : String) : Bool :=
  suf.toList.isSuffixOf s.toList

/-- Python `str.strip` (whitespace on both ends), phrased over character
lists so that it evaluates inside the kernel. -/
def pyStrip (s : String) : String :=
  ⟨((s.toList.dropWhile Char.isWhitespace).reverse.dropWhile
      Char.isWhitespace).reverse⟩

/-- The built-in default exclude patterns (`default_exclude_patterns`). -/
def default_exclude_patterns : List String :=
  [".DS_Store", ".svn/*", ".git*", MODULES_DIRECTORY ++ "/*",
   "*.pyc", "*.pyo", "dist/*"]

/-- Translation of `_match_any_pattern`: a filename matches a pattern list
when it equals a pattern, starts with a pattern followed by `/`, ends with
`/` followed by a pattern (gitignore mode only), or glob-matches it.  The
POSIX branch is modelled (no backslash normalisation). -/
def match_any_pattern (filename : String) (patterns : List String)
    (gitignore_style : Bool := false) : Bool :=
  patterns.any fun pattern =>
    filename == pattern
      || startswith filename (pattern ++ "/")
      || (gitignore_style && endswith filename ("/" ++ pattern))
      || fnmatch filename pattern

/-- Translation of `_check_include_file`: with an include list, a file is
kept iff it matches the include patterns; otherwise it is kept iff it does
not match the exclude patterns. -/
def check_include_file (filename : String) (includePatterns : Option (List String))
    (excludePatterns : List String) : Bool :=
  match includePatterns with
  | some inc => match_any_pattern filename inc
  | none => !(match_any_pattern filename excludePatterns)

/-- The file-inclusion rule in the words of the specification: included iff
it matches at least one include pattern when an include list exists,
otherwise included unless it matches an exclude pattern, where matching is
exact match, directory-prefix match, or glob match. -/
def spec_included (filename : String) (includePatterns : Option (List String))
    (excludePatterns : List String) : Bool :=
  let matchesPat := fun (pattern : String) =>
    filename == pattern || startswith filename (pattern ++ "/")
      || fnmatch filename pattern
  match includePatterns with
  | some inc => inc.any matchesPat
  | none => !(excludePatterns.any matchesPat)

/-- The rules contributed by a `.gitignore` file in `walk_package_files`:
each line stripped, dropping blank lines and lines starting with `#` or
`!`. -/
def gitignore_rules (lines : List String) : List String :=
  (lines.map pyStrip).filter fun line =>
    !line.toList.isEmpty && !startswith line "#" && !startswith line "!"

/-- Translation of `walk_package_files` restricted to its filtering
behaviour: given the manifest's `include`/`exclude` fields, the optional
`.gitignore` content and the relative paths produced by the directory walk,
return the relative paths that are yielded.  A path equal to
`PACKAGE_MANIFEST` is always yielded; otherwise `_check_include_file`
decides, with the exclude list extended by the defaults and the ignore-file
rules only when no include list exists. -/
def walk_package_files (includeField : Option (List String))
    (excludeField : List String) (gitignore : Option (List String))
    (relFiles : List String) : List String :=
  let excludeAll := excludeField ++ default_exclude_patterns ++
    (match gitignore with
     | some lines => gitignore_rules lines
     | none => [])
  relFiles.filter fun rel =>
    rel == PACKAGE_MANIFEST ||
      (match includeField with
       | some inc => check_include_file rel (some inc) []
       | none => check_include_file rel none excludeAll)

/-- Python `str.replace`, phrased over character lists with a fuel argument
(the fuel is fixed above the string length by `pyReplace`, and the
degenerate empty search string never occurs in the source). -/
def listReplaceFuel : Nat → List Char → List Char → List Char → List Char
  | 0, _, _, s => s
  | _, _, _, [] => []
  | fuel + 1, old, new, c :: cs =>
    if old.isPrefixOf (c :: cs) then
      new ++ listReplaceFuel fuel old new ((c :: cs).drop old.length)
    else c :: listReplaceFuel fuel old new cs

/-- Python `str.replace(old, new)`. -/
def pyReplace (s old new : String) : String :=
  ⟨listReplaceFuel (s.toList.length + 1) old.toList new.toList s.toList⟩

/-- Python substring containment `sub in s`. -/
def pyInStr (sub s : String) : Bool :=
  (List.range (s.toList.length + 1)).any fun i => sub.toList.isPrefixOf (s.toList.drop i)

/-- The manifest data the installation engine reads: identity, the
`include`/`exclude` file-selection fields and the `bin` entry-point map. -/
structure PackageManifest where
  name : String
  version : String
  includeField : Option (List String)
  excludeField : List String
  bin : List (String × String)
  deriving Repr, DecidableEq

/-- One of the three install locations accepted by `Installer.__init__`. -/
inductive InstallLocation where
  | locLocal
  | locGlobal
  | locRoot
  deriving Repr, DecidableEq

/-- A registry client as the engine sees it: a display name and the result
of `find_package` for the query at hand (`none` models the caught
`PackageNotFound`). -/
structure Registry where
  rname : String
  find_result : Option (String × String)
  deriving Repr, DecidableEq

/-- The configuration fields of the `Installer` object that the modelled
methods read. -/
structure Installer where
  reg : List Registry
  upgrade : Bool
  install_location : InstallLocation
  pip_separate_process : Bool
  pip_use_target_option : Bool
  recursive : Bool
  verbose : Bool
  ignore_installed : Bool
  force : Bool
  packages_dir : String
  pip_lib : String
  pip_lib_abs : String
  pip_prefix_dir : String
  deriving Repr, DecidableEq

/-- Python exceptions that can escape the modelled methods. -/
inductive PyError where
  | oserror (errno : Nat)
  | typeError (msg : String)
  | invalidManifest
  | assertionError
  | runtimeError (msg : String)
  deriving Repr, DecidableEq

/-- Observable events of an installer run, recorded in order: stack pushes
and pops, the target-directory pre-existence check, hook and uninstall and
dependency-install invocations, file materialisation, ledger writes,
registry queries, downloads, temporary-file removal, git clones, and the
recursive-repair call on an already-installed dependency. -/
inductive Ev where
  | push (name : String)
  | pop
  | preexistCheck (present : Bool)
  | uninstallCall (dir : String)
  | hookRun (hook : String)
  | depsInstall (name : String)
  | moveDir (dst : String)
  | writeLink (path : String)
  | copyFile (rel : String)
  | makeScript (sname : String)
  | writeLedger (path : String)
  | registryQuery (rname : String)
  | downloadArchive (name version : String)
  | tmpRemove (path : String)
  | cloneRepo (args : List String)
  | repairDeps (name : String)
  | acquireDep (name : String)
  deriving Repr, DecidableEq

/-- The mutable state threaded through the engine: the currently-installing
stack (the Python list's last element is this list's head), the set of
paths the engine has written and not removed, the ledgers persisted so far
(path and content lines), and the event trace. -/
structure PMState where
  currently_installing : List (PackageManifest × String)
  fs : List String
  ledgers : List (String × List String)
  trace : List Ev
  deriving Repr, DecidableEq

/-- Append one event to the trace. -/
def emit (e : Ev) (st : PMState) : PMState :=
  { st with trace := st.trace ++ [e] }

/-- Outcome of `_load_manifest` on the source directory: a manifest, a
missing file (`ENOENT`, turned into a failure return), another OS error
(re-raised), or an invalid manifest (failure return). -/
inductive LoadOutcome where
  | ok (m : PackageManifest)
  | enoent
  | oserror (errno : Nat)
  | invalid

/-- Oracle for one `install_from_directory` call: outcomes of the external
collaborators and of the nested engine calls it makes (manifest loading,
the target-existence probe, `uninstall_directory`, the lifecycle hooks,
`install_dependencies_for`), plus the directory-walk file list, the
optional `.gitignore` content, the script maker's outputs and the
interpreter version strings used for `${py}` expansion. -/
structure DirEnv where
  load : LoadOutcome
  target_exists : Bool
  uninstall_result : Except PyError Bool
  pre_install_ok : Bool
  deps_result : Except PyError Bool
  files : List String
  gitignore : Option (List String)
  script_files : String → List String
  py_version_major : String
  py_version_major_minor : String
  post_install_ok : Bool

/-- The expected-identity check of `install_from_directory`: a supplied
`expect` pair that differs from the loaded manifest's identity aborts. -/
def expect_mismatch (expect : Option (String × String)) (m : PackageManifest) : Bool :=
  match expect with
  | some e => (m.name, m.version) != e
  | none => false

/-- Expansion of a `bin` script name containing the `${py}` placeholder
into the unversioned, major and major.minor variants. -/
def expand_script_names (script_name pyv1 pyv3 : String) : List String :=
  if pyInStr "${py}" script_name then
    [pyReplace script_name "${py}" "", pyReplace script_name "${py}" pyv1,
     pyReplace script_name "${py}" pyv3]
  else [script_name]

/-- All script names generated for a manifest's `bin` entries, in order. -/
def script_install_names (env : DirEnv) (bin : List (String × String)) : List String :=
  (bin.map fun sb =>
    expand_script_names sb.1 env.py_version_major env.py_version_major_minor).flatten

/-- The path of the installed-files ledger inside a target directory. -/
def ledger_path (target_dir : String) : String :=
  target_dir ++ "/" ++ INSTALLED_FILES

/-- Steps 6-12 of `install_from_directory` (from the `pre-install` hook to
the `post-install` hook), reached when the target directory is absent or
was successfully uninstalled; per-iteration file appends of the source
loops are aggregated into single list appends. -/
def install_from_directory_main (env : DirEnv) (m : PackageManifest)
    (target_dir : String) (develop movedir : Bool) (st : PMState) :
    PMState × Except PyError (Bool × Option PackageManifest) :=
  let st := emit (Ev.hookRun "pre-install") st
  if !env.pre_install_ok then (st, Except.ok (false, some m))
  else
    let st := emit (Ev.depsInstall m.name) st
    match env.deps_result with
    | Except.error e => (st, Except.error e)
    | Except.ok false => (st, Except.ok (false, some m))
    | Except.ok true =>
      let (st, installed_files) :=
        if movedir then
          ({ st with fs := st.fs ++ [target_dir],
                     trace := st.trace ++ [Ev.moveDir target_dir] },
           [target_dir])
        else if develop then
          let linkfn := target_dir ++ "/" ++ LINK_FILE
          ({ st with fs := st.fs ++ [linkfn],
                     trace := st.trace ++ [Ev.writeLink linkfn] },
           [linkfn])
        else
          let rels := walk_package_files m.includeField m.excludeField
            env.gitignore env.files
          let copied := rels.map fun rel => target_dir ++ "/" ++ rel
          ({ st with fs := st.fs ++ copied,
                     trace := st.trace ++ rels.map Ev.copyFile },
           copied)
      let snames := script_install_names env m.bin
      let spaths := (snames.map env.script_files).flatten
      let st := { st with fs := st.fs ++ spaths,
                          trace := st.trace ++ snames.map Ev.makeScript }
      let installed_files := installed_files ++ spaths
      let st := { st with fs := st.fs ++ [ledger_path target_dir],
                          ledgers := st.ledgers ++
                            [(ledger_path target_dir, installed_files)],
                          trace := st.trace ++ [Ev.writeLedger (ledger_path target_dir)] }
      let st := emit (Ev.hookRun "post-install") st
      if !env.post_install_ok then (st, Except.ok (false, some m))
      else (st, Except.ok (true, some m))

/-- The part of `install_from_directory` that runs between the push and the
pop: the pre-existence check of the target directory (a no-op success
without the upgrade flag, an uninstall-first with it), then the main
install sequence. -/
def install_from_directory_body (inst : Installer) (env : DirEnv)
    (m : PackageManifest) (target_dir : String) (develop movedir : Bool)
    (st : PMState) : PMState × Except PyError (Bool × Option PackageManifest) :=
  let st := emit (Ev.preexistCheck env.target_exists) st
  if env.target_exists then
    if !inst.upgrade then (st, Except.ok (true, some m))
    else
      let st := emit (Ev.uninstallCall target_dir) st
      match env.uninstall_result with
      | Except.error e => (st, Except.error e)
      | Except.ok false => (st, Except.ok (false, some m))
      | Except.ok true =>
        install_from_directory_main env m target_dir develop movedir st
  else install_from_directory_main env m target_dir develop movedir st

/-- Translation of `Installer.install_from_directory`: load and validate
the manifest, check the expected identity, compute the target directory
(nested under the enclosing package for an internal dependency while the
currently-installing stack is non-empty, shared otherwise), push onto the
currently-installing stack, run the body, and pop the stack on exit.  The
pop-on-every-exit discipline of the `finally_` decorator (a repository
module outside the sources at hand) is modelled from the spec: the pair is
"always popped on exit, success or failure", which here wraps the body
result, raised errors included. -/
def install_from_directory (inst : Installer) (env : DirEnv) (st : PMState)
    (_directory : String) (develop : Bool := false) (_dev : Bool := false)
    (expect : Option (String × String) := none) (movedir : Bool := false)
    (internal : Bool := false) :
    PMState × Except PyError (Bool × Option PackageManifest) :=
  match env.load with
  | LoadOutcome.oserror e => (st, Except.error (PyError.oserror e))
  | LoadOutcome.enoent => (st, Except.ok (false, none))
  | LoadOutcome.invalid => (st, Except.ok (false, none))
  | LoadOutcome.ok m =>
    if expect_mismatch expect m then (st, Except.ok (false, some m))
    else
      let target_dir :=
        match internal, st.currently_installing with
        | true, top :: _ => top.2 ++ "/" ++ MODULES_DIRECTORY ++ "/" ++ m.name
        | _, _ => inst.packages_dir ++ "/" ++ m.name
      let st1 := { st with
        currently_installing := (m, target_dir) :: st.currently_installing,
        trace := st.trace ++ [Ev.push m.name] }
      let out := install_from_directory_body inst env m target_dir develop movedir st1
      ({ out.1 with currently_installing := out.1.currently_installing.tail,
                    trace := out.1.trace ++ [Ev.pop] }, out.2)

/-- Oracle for `install_from_archive`: the temporary unpack directory name
produced by `tempfile.mkdtemp` and the oracle of the nested directory
install. -/
structure ArchiveEnv where
  unpack_dir : String
  denv : DirEnv

/-- Translation of `Installer.install_from_archive`: make a temporary
directory, extract the archive into it, run the directory install with the
caller's expected identity, and remove the temporary directory again in a
`finally` block, regardless of outcome. -/
def install_from_archive (inst : Installer) (aenv : ArchiveEnv) (st : PMState)
    (_archive : String) (dev : Bool := false)
    (expect : Option (String × String) := none) :
    PMState × Except PyError (Bool × Option PackageManifest) :=
  let st := { st with fs := st.fs ++ [aenv.unpack_dir] }
  let out := install_from_directory inst aenv.denv st aenv.unpack_dir false dev expect
  ({ out.1 with fs := out.1.fs.filter (fun p => p ≠ aenv.unpack_dir),
                trace := out.1.trace ++ [Ev.tmpRemove aenv.unpack_dir] }, out.2)

/-- Outcome of `Installer.find_package`: a manifest, the caught
`PackageNotFound`, or a propagating error such as `InvalidPackageManifest`. -/
inductive FindOutcome where
  | found (m : PackageManifest)
  | notFound
  | raised (e : PyError)

/-- Oracle for `install_from_registry`: the `find_package` outcome for the
requested name, the temporary download filename, and the oracle of the
nested archive install. -/
structure RegistryEnv where
  find : FindOutcome
  tmp_name : String
  aenv : ArchiveEnv

/-- The value `install_from_registry` returns (when it returns): either a
`(success, info)` pair as produced by the two early returns, or the shape
actually produced by the final `return success, (package_name, version)`
line, whose first component is itself the `(success, manifest)` pair that
`install_from_archive` returns. -/
inductive RegistryReturn where
  | pair (success : Bool) (info : Option (String × String))
  | nested (success : Bool × Option PackageManifest) (info : String × String)
  deriving Repr, DecidableEq

/-- The parameter names `install_from_archive` declares in the source:
`self, archive, dev=False, expect=None`. -/
def install_from_archive_arg_names : List String :=
  ["self", "archive", "dev", "expect"]

/-- The keyword-argument names used at the `install_from_archive` call site
inside `install_from_registry`: `dev=dev, expect=..., internal=internal`. -/
def registry_archive_call_kwargs : List String :=
  ["dev", "expect", "internal"]

/-- The registry loop of `install_from_registry`: query each candidate
registry in order and stop at the first reporting a match; a registry whose
`find_package` raises `PackageNotFound` is skipped. -/
def registry_search : List Registry → PMState → PMState × Option (String × String)
  | [], st => (st, none)
  | r :: rest, st =>
    let st := emit (Ev.registryQuery r.rname) st
    match r.find_result with
    | some info => (st, some info)
    | none => registry_search rest st

/-- The fresh-install path of `install_from_registry` (after the
already-installed early return did not fire): search the registries, assert
the found name, download to a temporary file, call `install_from_archive` —
a call written with an `internal=` keyword that `install_from_archive` does
not declare, so Python raises a `TypeError` instead of delegating — and
remove the temporary file in a `finally` block regardless of outcome. -/
def install_from_registry_fresh (inst : Installer) (renv : RegistryEnv)
    (st : PMState) (package_name : String) (dev : Bool)
    (regs : Option (List Registry)) : PMState × Except PyError RegistryReturn :=
  let rs := match regs with
    | some rs => rs
    | none => inst.reg
  match registry_search rs st with
  | (st, none) => (st, Except.ok (RegistryReturn.pair false none))
  | (st, some info) =>
    if info.1 != package_name then (st, Except.error PyError.assertionError)
    else
      let st := emit (Ev.downloadArchive info.1 info.2) st
      let tmp := renv.tmp_name
      let st := { st with fs := st.fs ++ [tmp] }
      let out :=
        if registry_archive_call_kwargs.all
            (fun k => install_from_archive_arg_names.contains k) then
          let o := install_from_archive inst renv.aenv st tmp dev
            (some (package_name, info.2))
          (o.1, o.2.map (fun p => RegistryReturn.nested p (package_name, info.2)))
        else
          (st, Except.error (PyError.typeError
            "install_from_archive got an unexpected keyword argument internal"))
      ({ out.1 with fs := out.1.fs.filter (fun p => p ≠ tmp),
                    trace := out.1.trace ++ [Ev.tmpRemove tmp] }, out.2)

/-- Translation of `Installer.install_from_registry`: if the package is
already installed, warn when the selector rejects the installed version and,
without the upgrade flag, return success with the installed identity at
once; otherwise run the fresh-install path. -/
def install_from_registry (inst : Installer) (renv : RegistryEnv)
    (st : PMState) (package_name : String) (selector : String → Bool)
    (dev : Bool := false) (regs : Option (List Registry) := none)
    (_internal : Bool := false) : PMState × Except PyError RegistryReturn :=
  match renv.find with
  | FindOutcome.raised e => (st, Except.error e)
  | FindOutcome.found pkg =>
    let _unsatisfied_warning := !selector pkg.version
    if !inst.upgrade then
      (st, Except.ok (RegistryReturn.pair true (some (pkg.name, pkg.version))))
    else install_from_registry_fresh inst renv st package_name dev regs
  | FindOutcome.notFound =>
    install_from_registry_fresh inst renv st package_name dev regs

/-- Oracle for `install_from_git`: the exit status of the `git clone`
subprocess and the oracle of the nested directory install. -/
structure GitEnv where
  clone_exit : Int
  denv : DirEnv

/-- Split a character list at the first occurrence of a separator, or
`none` when the separator does not occur. -/
def split_first_at (sep : Char) : List Char → Option (List Char × List Char)
  | [] => none
  | c :: cs =>
    if c = sep then some ([], cs)
    else
      match split_first_at sep cs with
      | none => none
      | some p => some (c :: p.1, p.2)

/-- The `@ref` split at the head of `install_from_git`
(`if '@' in url: url, ref = url.partition('@')[::2]`): Python's
`str.partition` splits at the first occurrence of the separator. -/
def parse_git_url (url : String) : String × Option String :=
  match split_first_at '@' url.toList with
  | some p => (⟨p.1⟩, some ⟨p.2⟩)
  | none => (url, none)

/-- Translation of `Installer.install_from_git`: split an optional ref off
the URL, clone into the `.tmp` directory beneath the packages root (with
`-b ref` when a non-empty ref was split off and `--recursive` when
requested), fail on a non-zero clone exit status, then run the directory
install in move mode under a scoped cleanup that removes the clone
directory regardless of outcome. -/
def install_from_git (inst : Installer) (genv : GitEnv) (st : PMState)
    (url : String) (recursive : Bool := true) (internal : Bool := false) :
    PMState × Except PyError (Bool × Option (String × String)) :=
  let ur := parse_git_url url
  let dest := inst.packages_dir ++ "/.tmp"
  let args := ["git", "clone", ur.1, dest]
    ++ (match ur.2 with
        | some r => if r ≠ "" then ["-b", r] else []
        | none => [])
    ++ (if recursive then ["--recursive"] else [])
  let st := emit (Ev.cloneRepo args) st
  if genv.clone_exit ≠ 0 then (st, Except.ok (false, none))
  else
    let out := install_from_directory inst genv.denv st dest false false none
      true internal
    let st := emit (Ev.tmpRemove dest) out.1
    match out.2 with
    | Except.error e => (st, Except.error e)
    | Except.ok (success, some m) =>
      (st, Except.ok (success, some (m.name, m.version)))
    | Except.ok (success, none) => (st, Except.ok (success, none))

/-- One parsed dependency requirement: its single source kind and the
internal flag. -/
inductive ReqSource where
  | registrySel (selector : String → Bool) (registry : Option String)
  | gitUrl (git_url : String) (recursive : Bool)
  | pathSrc (path : String) (link : Bool)

/-- A requirement as `install_dependencies` consumes it. -/
structure Requirement where
  source : ReqSource
  internal : Bool

/-- Oracle for `install_dependencies`: the `find_package` outcome per
dependency, the (discarded) result of the recursive
`install_dependencies_for` repair call per already-present package, and the
success of each acquisition call per source kind. -/
structure DepsEnv where
  find : String → Bool → FindOutcome
  repair : String → Bool
  acquire_registry : String → Except PyError Bool
  acquire_git : String → Except PyError Bool
  acquire_path : String → Except PyError Bool

/-- Python `os.path.isabs` on POSIX. -/
def pyIsAbs (p : String) : Bool := startswith p "/"

/-- The first loop of `install_dependencies`: look every requirement up,
queue the absent ones in declaration order, and for each present one run the
recursive repair call when the recursive flag is set — binding its boolean
result without using it, exactly as the source discards the return value of
`install_dependencies_for`. -/
def collect_missing (denv : DepsEnv) (recursive : Bool) :
    List (String × Requirement) → PMState →
      PMState × Except PyError (List (String × Requirement))
  | [], st => (st, Except.ok [])
  | (name, req) :: rest, st =>
    match denv.find name req.internal with
    | FindOutcome.raised e => (st, Except.error e)
    | FindOutcome.notFound =>
      let out := collect_missing denv recursive rest st
      (out.1, out.2.map (fun l => (name, req) :: l))
    | FindOutcome.found m =>
      let st := if recursive then emit (Ev.repairDeps m.name) st else st
      let _discarded := denv.repair m.name
      collect_missing denv recursive rest st

/-- The second loop of `install_dependencies`: acquire each queued
requirement in order, dispatching on its source kind, and return failure at
the first acquisition that fails. -/
def install_queued (denv : DepsEnv) (current_dir : String) :
    List (String × Requirement) → PMState → PMState × Except PyError Bool
  | [], st => (st, Except.ok true)
  | (name, req) :: rest, st =>
    let st := emit (Ev.acquireDep name) st
    let r := match req.source with
      | ReqSource.registrySel _ _ => denv.acquire_registry name
      | ReqSource.gitUrl u _ => denv.acquire_git u
      | ReqSource.pathSrc p _ =>
        denv.acquire_path (if pyIsAbs p then p else current_dir ++ "/" ++ p)
    match r with
    | Except.error e => (st, Except.error e)
    | Except.ok false => (st, Except.ok false)
    | Except.ok true => install_queued denv current_dir rest st

/-- Translation of `Installer.install_dependencies`: collect the absent
requirements (running the discarded repair calls for present ones), succeed
at once when nothing is queued, else install the queue. -/
def install_dependencies (inst : Installer) (denv : DepsEnv) (st : PMState)
    (deps : List (String × Requirement)) (current_dir : String) :
    PMState × Except PyError Bool :=
  match collect_missing denv inst.recursive deps st with
  | (st, Except.error e) => (st, Except.error e)
  | (st, Except.ok install_deps) =>
    if install_deps.isEmpty then (st, Except.ok true)
    else install_queued denv current_dir install_deps st

/-- The interpreter search-path state the bridge touches: `sys.path` and
the `PYTHONPATH` environment variable (`none` when unset). -/
structure PyEnvState where
  sys_path : List String
  pythonpath : Option String
  deriving Repr, DecidableEq

/-- Oracle for the bridge call: the runtime's saved original path (when a
script context is active) and the outcome of the pip invocation (exit code,
or a raised exception). -/
structure PipEnv where
  original_path : Option (List String)
  pip_result : Except PyError Int

/-- Translation of `Installer.pythonpath_update_context` as a bracketing
combinator: save `sys.path` and `PYTHONPATH` — an unset variable is read as
the empty string by `os.getenv('PYTHONPATH', '')` — apply the mutations
(restore the original script path, then prepend the pip library path for
non-root locations), run the body, and in the `finally` block write both
saved values back.  The restore assigns `os.environ['PYTHONPATH']`
unconditionally, so a previously-unset variable comes back as set to the
saved (empty) string. -/
def pythonpath_update_context (inst : Installer) (penv : PipEnv)
    (es : PyEnvState) (body : PyEnvState → PyEnvState × Except PyError Bool) :
    PyEnvState × Except PyError Bool :=
  let old_sys_path := es.sys_path
  let old_pythonpath := es.pythonpath.getD ""
  let es := match penv.original_path with
    | some p => { es with sys_path := p }
    | none => es
  let es :=
    if inst.install_location ≠ InstallLocation.locRoot then
      { sys_path := inst.pip_lib :: es.sys_path,
        pythonpath := some (inst.pip_lib_abs ++ ":" ++ old_pythonpath) }
    else es
  let out := body es
  ({ sys_path := old_sys_path, pythonpath := some old_pythonpath }, out.2)

/-- Translation of `Installer.install_python_dependencies`: an empty
module-and-argument list succeeds at once without touching anything; else
the pip command line is built and pip runs inside `brewfix` (an external
module that does not touch the interpreter search-path state) and
`pythonpath_update_context`; a non-zero exit status returns failure and a
raised exception propagates, in both cases through the restoring `finally`.
The `installed_python_libs` cache update does not touch the search-path
state and is not modelled. -/
def install_python_dependencies (inst : Installer) (penv : PipEnv)
    (es : PyEnvState) (deps : List (String × String))
    (args : List String := []) : PyEnvState × Except PyError Bool :=
  let install_modules := deps.map fun nv => nv.1 ++ nv.2
  if install_modules.isEmpty && args.isEmpty then (es, Except.ok true)
  else
    let cmd :=
      match inst.install_location with
      | InstallLocation.locLocal | InstallLocation.locGlobal =>
        if inst.pip_use_target_option then ["--target", inst.pip_lib]
        else ["--prefix", inst.pip_prefix_dir]
      | InstallLocation.locRoot => []
    let _cmd := cmd ++ args ++ install_modules
      ++ (if inst.ignore_installed then ["--ignore-installed"] else [])
      ++ (if inst.upgrade then ["--upgrade"] else [])
      ++ (if inst.verbose then ["--verbose"] else [])
    pythonpath_update_context inst penv es fun es2 =>
      match penv.pip_result with
      | Except.error e => (es2, Except.error e)
      | Except.ok res =>
        if res ≠ 0 then (es2, Except.ok false) else (es2, Except.ok true)

/-! Concrete fixtures used by the witnesses and counterexamples. -/

/-- A small concrete manifest. -/
def mFoo : PackageManifest := ⟨"foo", "1.0.0", none, [], []⟩

/-- A concrete installer configuration: local location, no upgrade flag, one
registry that serves `foo@1.2.0`. -/
def instDefault : Installer :=
  ⟨[⟨"default", some ("foo", "1.2.0")⟩], false, InstallLocation.locLocal,
   false, false, false, false, false, false, "/pkgs", "/pip/lib",
   "/abs/pip/lib", "/pip"⟩

/-- The empty starting state. -/
def st0 : PMState := ⟨[], [], [], []⟩

/-- A directory-install oracle where the target directory already exists
and everything else succeeds. -/
def envExisting : DirEnv :=
  ⟨LoadOutcome.ok mFoo, true, Except.ok true, true, Except.ok true, [], none,
   fun _ => [], "3", "3.6", true⟩

/-- A directory-install oracle for a fresh copy-mode install whose
`post-install` hook fails after two files were walked. -/
def envC4 : DirEnv :=
  ⟨LoadOutcome.ok mFoo, false, Except.ok true, true, Except.ok true,
   ["nodepy.json", "main.ext"], none, fun _ => [], "3", "3.6", false⟩

/-- A directory-install oracle that is never reached on the paths the
fixtures exercise. -/
def denvUnused : DirEnv :=
  ⟨LoadOutcome.invalid, false, Except.ok true, true, Except.ok true, [], none,
   fun _ => [], "3", "3.6", true⟩

/-- A registry-install oracle: the package is not installed yet and the
download lands in a fixed temporary file. -/
def renvC5 : RegistryEnv :=
  ⟨FindOutcome.notFound, "/tmp/dl.tar.gz", ⟨"/tmp/unpack", denvUnused⟩⟩

/-- A registry-install oracle where the package is already installed. -/
def renvFound : RegistryEnv :=
  ⟨FindOutcome.found mFoo, "/tmp/dl.tar.gz", ⟨"/tmp/unpack", denvUnused⟩⟩

/-- A git oracle whose clone subprocess fails. -/
def genvFail : GitEnv := ⟨1, denvUnused⟩

/-- A pip-bridge oracle: no script context, pip exits with status 0. -/
def pipOk : PipEnv := ⟨none, Except.ok 0⟩

/-- A search-path state in which `PYTHONPATH` is unset. -/
def esNone : PyEnvState := ⟨["site"], none⟩

/-- Recognises the stack-push event. -/
def isPush : Ev → Bool
  | Ev.push _ => true
  | _ => false

/-- Recognises the pre-existence-check event. -/
def isPreexistCheck : Ev → Bool
  | Ev.preexistCheck _ => true
  | _ => false

/-- A registry requirement fixture. -/
def reqReg : Requirement := ⟨ReqSource.registrySel (fun _ => true) none, false⟩

/-- The default installer with the recursive-repair flag set. -/
def instRecursive : Installer := { instDefault with recursive := true }

/-- A dependency-set oracle where every lookup finds `mFoo` installed and
the repair call reports failure. -/
def denvFound1 : DepsEnv :=
  ⟨fun _ _ => FindOutcome.found mFoo, fun _ => false, fun _ => Except.ok true,
   fun _ => Except.ok true, fun _ => Except.ok true⟩

/-! Helper lemmas about the directory-install state machine. -/

theorem main_stack (env : DirEnv) (m : PackageManifest) (td : String)
    (develop movedir : Bool) (st : PMState) :
    (install_from_directory_main env m td develop movedir st).1.currently_installing
      = st.currently_installing := by
  cases h2 : env.deps_result with
  | error e =>
    cases h1 : env.pre_install_ok <;>
      simp [install_from_directory_main, emit, h1, h2]
  | ok b =>
    cases b <;> cases h1 : env.pre_install_ok <;>
      cases h3 : env.post_install_ok <;> cases movedir <;> cases develop <;>
        simp [install_from_directory_main, emit, h1, h2, h3]

theorem body_stack (inst : Installer) (env : DirEnv) (m : PackageManifest)
    (td : String) (develop movedir : Bool) (st : PMState) :
    (install_from_directory_body inst env m td develop movedir st).1.currently_installing
      = st.currently_installing := by
  cases h3 : env.uninstall_result with
  | error e =>
    cases h1 : env.target_exists <;> cases h2 : inst.upgrade <;>
      simp [install_from_directory_body, emit, h1, h2, h3, main_stack]
  | ok b =>
    cases b <;> cases h1 : env.target_exists <;> cases h2 : inst.upgrade <;>
      simp [install_from_directory_body, emit, h1, h2, h3, main_stack]

theorem main_trace_ext (env : DirEnv) (m : PackageManifest) (td : String)
    (develop movedir : Bool) (st : PMState) :
    st.trace <+: (install_from_directory_main env m td develop movedir st).1.trace := by
  cases h2 : env.deps_result with
  | error e =>
    cases h1 : env.pre_install_ok <;>
      simp [install_from_directory_main, emit, h1, h2]
  | ok b =>
    cases b <;> cases h1 : env.pre_install_ok <;>
      cases h3 : env.post_install_ok <;> cases movedir <;> cases develop <;>
        simp [install_from_directory_main, emit, h1, h2, h3]

theorem body_trace_ext (inst : Installer) (env : DirEnv) (m : PackageManifest)
    (td : String) (develop movedir : Bool) (st : PMState) :
    st.trace ++ [Ev.preexistCheck env.target_exists]
      <+: (install_from_directory_body inst env m td develop movedir st).1.trace := by
  unfold install_from_directory_body
  cases h1 : env.target_exists
  · simpa [emit] using
      main_trace_ext env m td develop movedir (emit (Ev.preexistCheck false) st)
  · cases h2 : inst.upgrade
    · simp [emit]
    · cases h3 : env.uninstall_result with
      | error e => simp [emit, h3]
      | ok b =>
        cases b
        · simp [emit, h3]
        · have h1' := main_trace_ext env m td develop movedir
            (emit (Ev.uninstallCall td) (emit (Ev.preexistCheck true) st))
          have h0 : st.trace ++ [Ev.preexistCheck true]
              <+: (emit (Ev.uninstallCall td) (emit (Ev.preexistCheck true) st)).trace := by
            simp [emit]
          simpa [emit, h3] using h0.trans h1'

theorem dir_trace_ext (inst : Installer) (env : DirEnv) (st : PMState)
    (d : String) (develop dev : Bool) (expect : Option (String × String))
    (movedir internal : Bool) :
    st.trace <+:
      (install_from_directory inst env st d develop dev expect movedir
        internal).1.trace := by
  cases h : env.load with
  | oserror e => simp [install_from_directory, h]
  | enoent => simp [install_from_directory, h]
  | invalid => simp [install_from_directory, h]
  | ok m =>
    by_cases hexp : expect_mismatch expect m
    · simp [install_from_directory, h, hexp]
    · have hb := body_trace_ext inst env m
        (match internal, st.currently_installing with
         | true, top :: _ => top.2 ++ "/" ++ MODULES_DIRECTORY ++ "/" ++ m.name
         | _, _ => inst.packages_dir ++ "/" ++ m.name)
        develop movedir
        { st with
          currently_installing :=
            (m, match internal, st.currently_installing with
                | true, top :: _ => top.2 ++ "/" ++ MODULES_DIRECTORY ++ "/" ++ m.name
                | _, _ => inst.packages_dir ++ "/" ++ m.name) :: st.currently_installing,
          trace := st.trace ++ [Ev.push m.name] }
      have h0 : st.trace <+: st.trace ++ [Ev.push m.name] ++ [Ev.preexistCheck env.target_exists] := by
        simp
      have hb' := h0.trans (by simpa using hb)
      have := hb'.trans (List.prefix_append _ [Ev.pop])
      simpa [install_from_directory, h, hexp] using this

/-! Further helper lemmas. -/

theorem dir_trace_shape (inst : Installer) (env : DirEnv) (st : PMState)
    (d : String) (develop dev : Bool) (expect : Option (String × String))
    (movedir internal : Bool) (m : PackageManifest)
    (h : env.load = LoadOutcome.ok m)
    (hexp : expect_mismatch expect m = false) :
    ∃ rest, (install_from_directory inst env st d develop dev expect movedir
        internal).1.trace
      = st.trace ++ Ev.push m.name :: Ev.preexistCheck env.target_exists :: rest := by
  obtain ⟨drest, hd⟩ := body_trace_ext inst env m
    (match internal, st.currently_installing with
     | true, top :: _ => top.2 ++ "/" ++ MODULES_DIRECTORY ++ "/" ++ m.name
     | _, _ => inst.packages_dir ++ "/" ++ m.name)
    develop movedir
    { st with
      currently_installing :=
        (m, match internal, st.currently_installing with
            | true, top :: _ => top.2 ++ "/" ++ MODULES_DIRECTORY ++ "/" ++ m.name
            | _, _ => inst.packages_dir ++ "/" ++ m.name) :: st.currently_installing,
      trace := st.trace ++ [Ev.push m.name] }
  refine ⟨drest ++ [Ev.pop], ?_⟩
  have h2 := congrArg (fun l => l ++ [Ev.pop]) hd
  simp only [install_from_directory, h, hexp, Bool.false_eq_true, if_false]
  simpa using h2.symm

theorem split_first_at_no_sep (l : List Char) (h : '@' ∉ l) :
    split_first_at '@' l = none := by
  induction l with
  | nil => rfl
  | cons c cs ih =>
    simp only [List.mem_cons, not_or] at h
    have hc : ¬(c = '@') := fun hc => h.1 hc.symm
    simp [split_first_at, hc, ih h.2]

theorem split_first_at_append (l t : List Char) (h : '@' ∉ l) :
    split_first_at '@' (l ++ '@' :: t) = some (l, t) := by
  induction l with
  | nil => simp [split_first_at]
  | cons c cs ih =>
    simp only [List.mem_cons, not_or] at h
    have hc : ¬(c = '@') := fun hc => h.1 hc.symm
    simp [split_first_at, hc, ih h.2]

theorem toList_concat_at (u r : String) :
    (u ++ "@" ++ r).toList = u.toList ++ '@' :: r.toList := by
  simp [String.toList]

theorem parse_git_url_at (u r : String) (h : '@' ∉ u.toList) :
    parse_git_url (u ++ "@" ++ r) = (u, some r) := by
  unfold parse_git_url
  rw [toList_concat_at, split_first_at_append _ _ h]
  rfl

theorem parse_git_url_plain (s : String) (h : '@' ∉ s.toList) :
    parse_git_url s = (s, none) := by
  unfold parse_git_url
  rw [split_first_at_no_sep _ h]

theorem collect_missing_trace_ext (denv : DepsEnv) (recursive : Bool)
    (deps : List (String × Requirement)) (st : PMState) :
    st.trace <+: (collect_missing denv recursive deps st).1.trace := by
  induction deps generalizing st with
  | nil => exact List.prefix_rfl
  | cons p rest ih =>
    obtain ⟨name, req⟩ := p
    cases hfind : denv.find name req.internal with
    | raised e => simp [collect_missing, hfind]
    | notFound => simpa [collect_missing, hfind] using ih st
    | found m =>
      cases recursive with
      | false => simpa [collect_missing, hfind] using ih st
      | true =>
        have hstep : st.trace <+: (emit (Ev.repairDeps m.name) st).trace :=
          ⟨[Ev.repairDeps m.name], by simp [emit]⟩
        refine hstep.trans ?_
        simpa [collect_missing, hfind] using ih (emit (Ev.repairDeps m.name) st)

theorem install_queued_trace_ext (denv : DepsEnv) (cd : String)
    (l : List (String × Requirement)) (st : PMState) :
    st.trace <+: (install_queued denv cd l st).1.trace := by
  induction l generalizing st with
  | nil => exact List.prefix_rfl
  | cons p rest ih =>
    obtain ⟨name, req⟩ := p
    have hstep : st.trace <+: (emit (Ev.acquireDep name) st).trace :=
      ⟨[Ev.acquireDep name], by simp [emit]⟩
    cases hs : req.source with
    | registrySel sel reg =>
      cases har : denv.acquire_registry name with
      | error e => simpa [install_queued, hs, har, emit] using hstep
      | ok b =>
        cases b
        · simpa [install_queued, hs, har, emit] using hstep
        · refine hstep.trans ?_
          simpa [install_queued, hs, har] using ih (emit (Ev.acquireDep name) st)
    | gitUrl gu grec =>
      cases har : denv.acquire_git gu with
      | error e => simpa [install_queued, hs, har, emit] using hstep
      | ok b =>
        cases b
        · simpa [install_queued, hs, har, emit] using hstep
        · refine hstep.trans ?_
          simpa [install_queued, hs, har] using ih (emit (Ev.acquireDep name) st)
    | pathSrc pp pl =>
      cases har : denv.acquire_path (if pyIsAbs pp then pp else cd ++ "/" ++ pp) with
      | error e => simpa [install_queued, hs, har, emit] using hstep
      | ok b =>
        cases b
        · simpa [install_queued, hs, har, emit] using hstep
        · refine hstep.trans ?_
          simpa [install_queued, hs, har] using ih (emit (Ev.acquireDep name) st)

theorem collect_missing_repair_event (denv : DepsEnv)
    (deps : List (String × Requirement)) (st : PMState) (name : String)
    (req : Requirement) (m : PackageManifest)
    (hmem : (name, req) ∈ deps)
    (hf : denv.find name req.internal = FindOutcome.found m)
    (hnr : ∀ p ∈ deps, ∀ e, denv.find p.1 p.2.internal ≠ FindOutcome.raised e) :
    Ev.repairDeps m.name ∈ (collect_missing denv true deps st).1.trace := by
  induction deps generalizing st with
  | nil => cases hmem
  | cons p rest ih =>
    obtain ⟨name2, req2⟩ := p
    rcases List.mem_cons.mp hmem with heq | hmem2
    · cases heq
      simp only [collect_missing, hf]
      refine (collect_missing_trace_ext denv true rest
        (emit (Ev.repairDeps m.name) st)).subset ?_
      simp [emit]
    · cases hfind : denv.find name2 req2.internal with
      | raised e =>
        exact absurd hfind (hnr (name2, req2) (List.mem_cons_self _ _) e)
      | notFound =>
        simp only [collect_missing, hfind]
        exact ih st hmem2 (fun p hp e => hnr p (List.mem_cons_of_mem _ hp) e)
      | found m2 =>
        simp only [collect_missing, hfind]
        exact ih (emit (Ev.repairDeps m2.name) st) hmem2
          (fun p hp e => hnr p (List.mem_cons_of_mem _ hp) e)

theorem collect_missing_repair_irrelevant (f : String → Bool → FindOutcome)
    (r1 r2 : String → Bool) (ar ag ap : String → Except PyError Bool)
    (recursive : Bool) (deps : List (String × Requirement)) (st : PMState) :
    collect_missing ⟨f, r1, ar, ag, ap⟩ recursive deps st
      = collect_missing ⟨f, r2, ar, ag, ap⟩ recursive deps st := by
  induction deps generalizing st with
  | nil => rfl
  | cons p rest ih =>
    obtain ⟨name, req⟩ := p
    cases h : f name req.internal <;>
      simp [collect_missing, h, ih]

theorem install_queued_repair_irrelevant (f : String → Bool → FindOutcome)
    (r1 r2 : String → Bool) (ar ag ap : String → Except PyError Bool)
    (cd : String) (l : List (String × Requirement)) (st : PMState) :
    install_queued ⟨f, r1, ar, ag, ap⟩ cd l st
      = install_queued ⟨f, r2, ar, ag, ap⟩ cd l st := by
  induction l generalizing st with
  | nil => rfl
  | cons p rest ih =>
    obtain ⟨name, req⟩ := p
    cases hs : req.source with
    | registrySel sel reg =>
      cases har : ar name with
      | error e => simp [install_queued, hs, har]
      | ok b => cases b <;> simp [install_queued, hs, har, ih]
    | gitUrl gu grec =>
      cases har : ag gu with
      | error e => simp [install_queued, hs, har]
      | ok b => cases b <;> simp [install_queued, hs, har, ih]
    | pathSrc pp pl =>
      cases har : ap (if pyIsAbs pp then pp else cd ++ "/" ++ pp) with
      | error e => simp [install_queued, hs, har]
      | ok b => cases b <;> simp [install_queued, hs, har, ih]

theorem collect_missing_all_found (denv : DepsEnv) (recursive : Bool)
    (deps : List (String × Requirement)) (st : PMState)
    (h : ∀ p ∈ deps, ∃ m, denv.find p.1 p.2.internal = FindOutcome.found m) :
    (collect_missing denv recursive deps st).2 = Except.ok [] := by
  induction deps generalizing st with
  | nil => rfl
  | cons p rest ih =>
    obtain ⟨name, req⟩ := p
    obtain ⟨m, hm⟩ := h (name, req) (List.mem_cons_self _ _)
    cases recursive <;>
      simp [collect_missing, hm,
        ih _ (fun q hq => h q (List.mem_cons_of_mem _ hq))]

/-! The claims. -/

/-- C1: for every call to `install_from_directory`, the currently-installing
stack after the call equals the stack before the call — the pair pushed on
entry is popped on exit, and calls that fail before the push leave the
stack untouched, whatever the outcome (success, failure, or a raised
error from the uninstall or dependency step). -/
theorem C1_stack_balanced (inst : Installer) (env : DirEnv) (st : PMState)
    (d : String) (develop dev : Bool) (expect : Option (String × String))
    (movedir internal : Bool) :
    (install_from_directory inst env st d develop dev expect movedir
        internal).1.currently_installing = st.currently_installing := by
  cases h : env.load with
  | oserror e => simp [install_from_directory, h]
  | enoent => simp [install_from_directory, h]
  | invalid => simp [install_from_directory, h]
  | ok m =>
    by_cases hexp : expect_mismatch expect m = true
    · simp [install_from_directory, h, hexp]
    · simp [install_from_directory, h, hexp, body_stack]

/-- C2 (counterexample): a run of `install_from_directory` in which both the
push and the pre-existence check occur, and the check does NOT precede the
push — the trace is push, then check, then pop, refuting the claim that the
check is performed before the push. -/
theorem C2_counterexample :
    (install_from_directory instDefault envExisting st0 "/src").1.trace
      = [Ev.push "foo", Ev.preexistCheck true, Ev.pop]
    ∧ (install_from_directory instDefault envExisting st0 "/src").1.trace.any
        isPush = true
    ∧ (install_from_directory instDefault envExisting st0 "/src").1.trace.any
        isPreexistCheck = true
    ∧ ¬((install_from_directory instDefault envExisting st0
          "/src").1.trace.findIdx isPreexistCheck
        < (install_from_directory instDefault envExisting st0
            "/src").1.trace.findIdx isPush) := by decide

/-- C2 (amended): in `install_from_directory`, the push onto the
currently-installing stack precedes the pre-existence check of the target
directory — in every execution whose trace contains the check, the push
occurs at a strictly earlier position. -/
theorem C2_push_precedes_check (inst : Installer) (env : DirEnv)
    (stack : List (PackageManifest × String)) (fs : List String)
    (lgs : List (String × List String)) (d : String) (develop dev : Bool)
    (expect : Option (String × String)) (movedir internal : Bool)
    (hocc : (install_from_directory inst env ⟨stack, fs, lgs, []⟩ d develop dev
        expect movedir internal).1.trace.any isPreexistCheck = true) :
    (install_from_directory inst env ⟨stack, fs, lgs, []⟩ d develop dev expect
        movedir internal).1.trace.findIdx isPush
      < (install_from_directory inst env ⟨stack, fs, lgs, []⟩ d develop dev
          expect movedir internal).1.trace.findIdx isPreexistCheck := by
  cases h : env.load with
  | oserror e => simp [install_from_directory, h, isPreexistCheck] at hocc
  | enoent => simp [install_from_directory, h, isPreexistCheck] at hocc
  | invalid => simp [install_from_directory, h, isPreexistCheck] at hocc
  | ok m =>
    by_cases hexp : expect_mismatch expect m = true
    · simp [install_from_directory, h, hexp, isPreexistCheck] at hocc
    · obtain ⟨rest, hr⟩ := dir_trace_shape inst env ⟨stack, fs, lgs, []⟩ d
        develop dev expect movedir internal m h (by simpa using hexp)
      rw [hr]
      simp [List.findIdx_cons, isPush, isPreexistCheck]

/-- C2 (witness): the amended ordering at a concrete run. -/
theorem C2_push_precedes_check_witness :
    (install_from_directory instDefault envExisting
        ⟨[], [], [], []⟩ "/src" false false none false false).1.trace.findIdx
        isPush
      < (install_from_directory instDefault envExisting
          ⟨[], [], [], []⟩ "/src" false false none false
          false).1.trace.findIdx isPreexistCheck :=
  C2_push_precedes_check instDefault envExisting [] [] [] "/src" false false
    none false false (by decide)

/-- C3: installing an already-present package without the upgrade flag is a
no-op success: `install_from_directory` returns success with the loaded
manifest writing no file and no ledger, and `install_from_registry` returns
success with the installed identity, leaving the whole state untouched — no
registry query, no download. -/
theorem C3_already_installed_noop :
    (∀ (inst : Installer) (env : DirEnv) (st : PMState) (d : String)
        (develop dev : Bool) (expect : Option (String × String))
        (movedir internal : Bool) (m : PackageManifest),
      env.load = LoadOutcome.ok m → expect_mismatch expect m = false →
      env.target_exists = true → inst.upgrade = false →
      ((install_from_directory inst env st d develop dev expect movedir
          internal).2 = Except.ok (true, some m)
        ∧ (install_from_directory inst env st d develop dev expect movedir
            internal).1.fs = st.fs
        ∧ (install_from_directory inst env st d develop dev expect movedir
            internal).1.ledgers = st.ledgers))
    ∧ (∀ (inst : Installer) (renv : RegistryEnv) (st : PMState)
        (pname : String) (sel : String → Bool) (dev : Bool)
        (regs : Option (List Registry)) (intl : Bool) (pkg : PackageManifest),
      renv.find = FindOutcome.found pkg → inst.upgrade = false →
      install_from_registry inst renv st pname sel dev regs intl
        = (st, Except.ok (RegistryReturn.pair true
            (some (pkg.name, pkg.version))))) := by
  constructor
  · intro inst env st d develop dev expect movedir internal m hl hexp hte hup
    refine ⟨?_, ?_, ?_⟩ <;>
      simp [install_from_directory, install_from_directory_body, emit, hl,
        hexp, hte, hup]
  · intro inst renv st pname sel dev regs intl pkg hf hup
    simp [install_from_registry, hf, hup]

/-- C3 (witness): the no-op success at concrete already-installed runs. -/
theorem C3_witness :
    ((install_from_directory instDefault envExisting st0 "/src").2
        = Except.ok (true, some mFoo)
      ∧ (install_from_directory instDefault envExisting st0 "/src").1.fs = st0.fs
      ∧ (install_from_directory instDefault envExisting st0 "/src").1.ledgers
        = st0.ledgers)
    ∧ install_from_registry instDefault renvFound st0 "foo" (fun _ => true)
        = (st0, Except.ok (RegistryReturn.pair true (some ("foo", "1.0.0")))) :=
  ⟨C3_already_installed_noop.1 instDefault envExisting st0 "/src" false false
      none false false mFoo rfl rfl rfl rfl,
   C3_already_installed_noop.2 instDefault renvFound st0 "foo" (fun _ => true)
      false none false mFoo rfl rfl⟩

/-- C4: when the `post-install` hook fails in a fresh copy-mode
`install_from_directory`, the call returns failure, yet the final state
still holds every copied file, every generated script and the written
ledger — nothing is removed or rolled back. -/
theorem C4_post_install_failure_keeps_files (inst : Installer) (env : DirEnv)
    (st : PMState) (d : String) (dev : Bool)
    (expect : Option (String × String)) (m : PackageManifest)
    (hl : env.load = LoadOutcome.ok m)
    (hexp : expect_mismatch expect m = false)
    (hte : env.target_exists = false) (hpre : env.pre_install_ok = true)
    (hdeps : env.deps_result = Except.ok true)
    (hpost : env.post_install_ok = false) :
    (install_from_directory inst env st d false dev expect false false).2
      = Except.ok (false, some m)
    ∧ (install_from_directory inst env st d false dev expect false false).1.fs
      = st.fs
        ++ (walk_package_files m.includeField m.excludeField env.gitignore
              env.files).map
             (fun rel => inst.packages_dir ++ "/" ++ m.name ++ "/" ++ rel)
        ++ ((script_install_names env m.bin).map env.script_files).flatten
        ++ [ledger_path (inst.packages_dir ++ "/" ++ m.name)]
    ∧ (install_from_directory inst env st d false dev expect false
          false).1.ledgers
      = st.ledgers
        ++ [(ledger_path (inst.packages_dir ++ "/" ++ m.name),
             (walk_package_files m.includeField m.excludeField env.gitignore
                 env.files).map
               (fun rel => inst.packages_dir ++ "/" ++ m.name ++ "/" ++ rel)
             ++ ((script_install_names env m.bin).map env.script_files).flatten)] := by
  refine ⟨?_, ?_, ?_⟩ <;>
    simp [install_from_directory, install_from_directory_body,
      install_from_directory_main, emit, hl, hexp, hte, hpre, hdeps, hpost]

/-- C4 (witness): a concrete run whose `post-install` hook fails after two
files and the ledger were written. -/
theorem C4_witness :
    (install_from_directory instDefault envC4 st0 "/src").2
      = Except.ok (false, some mFoo)
    ∧ (install_from_directory instDefault envC4 st0 "/src").1.fs
      = st0.fs
        ++ (walk_package_files mFoo.includeField mFoo.excludeField
              envC4.gitignore envC4.files).map
             (fun rel => instDefault.packages_dir ++ "/" ++ mFoo.name ++ "/" ++ rel)
        ++ ((script_install_names envC4 mFoo.bin).map envC4.script_files).flatten
        ++ [ledger_path (instDefault.packages_dir ++ "/" ++ mFoo.name)]
    ∧ (install_from_directory instDefault envC4 st0 "/src").1.ledgers
      = st0.ledgers
        ++ [(ledger_path (instDefault.packages_dir ++ "/" ++ mFoo.name),
             (walk_package_files mFoo.includeField mFoo.excludeField
                 envC4.gitignore envC4.files).map
               (fun rel => instDefault.packages_dir ++ "/" ++ mFoo.name ++ "/" ++ rel)
             ++ ((script_install_names envC4 mFoo.bin).map
                  envC4.script_files).flatten)] :=
  C4_post_install_failure_keeps_files instDefault envC4 st0 "/src" false none
    mFoo rfl rfl rfl rfl rfl rfl

/-- C5: on the fresh-install path of `install_from_registry` (package not
installed, a registry matches), the call to `install_from_archive` is
written with an `internal=` keyword that `install_from_archive` does not
declare, so the call raises a `TypeError` instead of returning the
documented `(success, (name, version))` pair; the temporary download file
is still removed by the `finally` block.  The last two conjuncts record the
signature mismatch itself. -/
theorem C5_registry_call_typeerror :
    (install_from_registry instDefault renvC5 st0 "foo" (fun _ => true)).2
      = Except.error (PyError.typeError
          "install_from_archive got an unexpected keyword argument internal")
    ∧ (install_from_registry instDefault renvC5 st0 "foo" (fun _ => true)).1.trace
      = [Ev.registryQuery "default", Ev.downloadArchive "foo" "1.2.0",
         Ev.tmpRemove "/tmp/dl.tar.gz"]
    ∧ (install_from_registry instDefault renvC5 st0 "foo" (fun _ => true)).1.fs
      = []
    ∧ registry_archive_call_kwargs.contains "internal" = true
    ∧ install_from_archive_arg_names.contains "internal" = false := by decide

/-- C6 (counterexample): on the input `"a@b" ++ "@" ++ "c"` — a string of
the form url-at-ref with url `"a@b"` and ref `"c"` — the clone is performed
on `"a"`, not on `"a@b"`: `install_from_git` splits at the FIRST `@`, so
the suffix reading of the claim fails. -/
theorem C6_counterexample :
    ("a@b" ++ "@" ++ "c" : String) = "a@b@c"
    ∧ (install_from_git instDefault genvFail st0 "a@b@c").1.trace
      = [Ev.cloneRepo ["git", "clone", "a", "/pkgs/.tmp", "-b", "b@c",
          "--recursive"]]
    ∧ (install_from_git instDefault genvFail st0 "a@b@c").2
      = Except.ok (false, none)
    ∧ ("a" : String) ≠ "a@b" := by decide

/-- C6 (amended): `install_from_git` splits the input at the FIRST `@`: for
`u ++ "@" ++ r` with `u` free of `@`, the parsed clone URL is `u` and the
ref is the whole remainder `r` (passed as `-b r` when non-empty); a string
without `@` is cloned whole with no ref; and a non-zero clone exit status
makes the call return failure. -/
theorem C6_first_at_split :
    (∀ u r : String, '@' ∉ u.toList →
      parse_git_url (u ++ "@" ++ r) = (u, some r))
    ∧ (∀ s : String, '@' ∉ s.toList → parse_git_url s = (s, none))
    ∧ (∀ (inst : Installer) (genv : GitEnv)
        (stack : List (PackageManifest × String)) (fs : List String)
        (lgs : List (String × List String)) (u r : String) (rec_ intl : Bool),
        '@' ∉ u.toList → r ≠ "" → genv.clone_exit ≠ 0 →
        (install_from_git inst genv ⟨stack, fs, lgs, []⟩ (u ++ "@" ++ r) rec_
            intl).1.trace
          = [Ev.cloneRepo (["git", "clone", u, inst.packages_dir ++ "/.tmp",
              "-b", r] ++ (if rec_ then ["--recursive"] else []))])
    ∧ (∀ (inst : Installer) (genv : GitEnv)
        (stack : List (PackageManifest × String)) (fs : List String)
        (lgs : List (String × List String)) (s : String) (rec_ intl : Bool),
        '@' ∉ s.toList → genv.clone_exit ≠ 0 →
        (install_from_git inst genv ⟨stack, fs, lgs, []⟩ s rec_ intl).1.trace
          = [Ev.cloneRepo (["git", "clone", s, inst.packages_dir ++ "/.tmp"]
              ++ (if rec_ then ["--recursive"] else []))])
    ∧ (∀ (inst : Installer) (genv : GitEnv) (st : PMState) (url : String)
        (rec_ intl : Bool), genv.clone_exit ≠ 0 →
        (install_from_git inst genv st url rec_ intl).2
          = Except.ok (false, none)) := by
  refine ⟨parse_git_url_at, parse_git_url_plain, ?_, ?_, ?_⟩
  · intro inst genv stack fs lgs u r rec_ intl hu hr hcl
    simp [install_from_git, parse_git_url_at u r hu, emit, hr, hcl]
  · intro inst genv stack fs lgs s rec_ intl hs hcl
    simp [install_from_git, parse_git_url_plain s hs, emit, hcl]
  · intro inst genv st url rec_ intl h
    simp [install_from_git, h]

/-- C6 (witness): first-at splitting and the clone failure at concrete
inputs. -/
theorem C6_witness :
    parse_git_url ("https://example/repo.git" ++ "@" ++ "v2")
      = ("https://example/repo.git", some "v2")
    ∧ parse_git_url "plainurl" = ("plainurl", none)
    ∧ (install_from_git instDefault genvFail st0
        ("https://example/repo.git" ++ "@" ++ "v2")).1.trace
      = [Ev.cloneRepo (["git", "clone", "https://example/repo.git",
          instDefault.packages_dir ++ "/.tmp", "-b", "v2"]
          ++ (if true then ["--recursive"] else []))]
    ∧ (install_from_git instDefault genvFail st0 "plainurl" false).1.trace
      = [Ev.cloneRepo (["git", "clone", "plainurl",
          instDefault.packages_dir ++ "/.tmp"]
          ++ (if false then ["--recursive"] else []))]
    ∧ (install_from_git instDefault genvFail st0 "anyurl").2
      = Except.ok (false, none) :=
  ⟨C6_first_at_split.1 "https://example/repo.git" "v2" (by decide),
   C6_first_at_split.2.1 "plainurl" (by decide),
   C6_first_at_split.2.2.1 instDefault genvFail [] [] []
     "https://example/repo.git" "v2" true false (by decide) (by decide)
     (by decide),
   C6_first_at_split.2.2.2.1 instDefault genvFail [] [] [] "plainurl" false
     false (by decide) (by decide),
   C6_first_at_split.2.2.2.2 instDefault genvFail st0 "anyurl" true false
     (by decide)⟩

/-- C7: the file-inclusion decision of `_check_include_file` coincides with
the rule of the specification — with an include list, included iff some
include pattern matches; otherwise included iff no exclude pattern matches,
where matching is exact, directory-prefix, or glob — and the four concrete
examples of the specification evaluate as stated. -/
theorem C7_inclusion_policy :
    (∀ (f : String) (inc : Option (List String)) (exc : List String),
      check_include_file f inc exc = spec_included f inc exc)
    ∧ check_include_file "docs/readme.md" (some ["src/*"]) [] = false
    ∧ check_include_file "src/main.ext" (some ["src/*"]) [] = true
    ∧ check_include_file "build.cache" none ["*.cache"] = false
    ∧ check_include_file "main.ext" none ["*.cache"] = true := by
  refine ⟨?_, by decide, by decide, by decide, by decide⟩
  intro f inc exc
  cases inc <;> simp [check_include_file, spec_included, match_any_pattern]

/-- C8 (counterexample): a call to `install_python_dependencies` starting
with `PYTHONPATH` unset ends with `PYTHONPATH` set to the empty string —
the environment variable does not equal its value before the call. -/
theorem C8_counterexample :
    esNone.pythonpath = none
    ∧ (install_python_dependencies instDefault pipOk esNone
        [("six", ">=1.0")]).1.pythonpath = some ""
    ∧ (install_python_dependencies instDefault pipOk esNone
        [("six", ">=1.0")]).1.pythonpath ≠ esNone.pythonpath := by decide

/-- C8 (amended): for every call to `install_python_dependencies`, whether
pip succeeds, fails or raises, `sys.path` is restored exactly, and
`PYTHONPATH` is restored up to identifying unset with the empty string: it
is either untouched (early return) or set to the string value read before
the call, where an unset variable is read as the empty string. -/
theorem C8_search_path_restored (inst : Installer) (penv : PipEnv)
    (es : PyEnvState) (deps : List (String × String)) (args : List String) :
    (install_python_dependencies inst penv es deps args).1.sys_path
      = es.sys_path
    ∧ (install_python_dependencies inst penv es deps args).1.pythonpath.getD ""
      = es.pythonpath.getD ""
    ∧ ((install_python_dependencies inst penv es deps args).1.pythonpath
        = es.pythonpath
      ∨ (install_python_dependencies inst penv es deps args).1.pythonpath
        = some (es.pythonpath.getD "")) := by
  by_cases h : (deps.map fun nv => nv.1 ++ nv.2).isEmpty && args.isEmpty
  · simp [install_python_dependencies, h]
  · refine ⟨?_, ?_, Or.inr ?_⟩ <;>
      simp [install_python_dependencies, pythonpath_update_context, h]

/-- C9: when the recursive-repair flag is set and a dependency is found
already installed, `install_dependencies` invokes the transitive
re-verification (the repair event appears in the trace) but discards its
result: the whole outcome is independent of the repair oracle, and a run in
which every dependency is already present returns success no matter what
the repair calls report. -/
theorem C9_repair_discarded :
    (∀ (inst : Installer) (denv : DepsEnv) (st : PMState)
        (deps : List (String × Requirement)) (cd name : String)
        (req : Requirement) (m : PackageManifest),
      inst.recursive = true → (name, req) ∈ deps →
      denv.find name req.internal = FindOutcome.found m →
      (∀ p ∈ deps, ∀ e, denv.find p.1 p.2.internal ≠ FindOutcome.raised e) →
      Ev.repairDeps m.name ∈ (install_dependencies inst denv st deps cd).1.trace)
    ∧ (∀ (inst : Installer) (f : String → Bool → FindOutcome)
        (r1 r2 : String → Bool) (ar ag ap : String → Except PyError Bool)
        (st : PMState) (deps : List (String × Requirement)) (cd : String),
      install_dependencies inst ⟨f, r1, ar, ag, ap⟩ st deps cd
        = install_dependencies inst ⟨f, r2, ar, ag, ap⟩ st deps cd)
    ∧ (∀ (inst : Installer) (denv : DepsEnv) (st : PMState)
        (deps : List (String × Requirement)) (cd : String),
      (∀ p ∈ deps, ∃ m, denv.find p.1 p.2.internal = FindOutcome.found m) →
      (install_dependencies inst denv st deps cd).2 = Except.ok true) := by
  refine ⟨?_, ?_, ?_⟩
  · intro inst denv st deps cd name req m hrec hmem hf hnr
    have hkey := collect_missing_repair_event denv deps st name req m hmem hf hnr
    unfold install_dependencies
    rw [hrec]
    rcases hcm : collect_missing denv true deps st with ⟨st2, r2⟩
    rw [hcm] at hkey
    cases r2 with
    | error e => exact hkey
    | ok l =>
      by_cases hl : l.isEmpty
      · simpa [hl] using hkey
      · simp only [hl, Bool.false_eq_true, if_false]
        exact (install_queued_trace_ext denv cd l st2).subset hkey
  · intro inst f r1 r2 ar ag ap st deps cd
    unfold install_dependencies
    rw [collect_missing_repair_irrelevant f r1 r2 ar ag ap inst.recursive deps st]
    rcases collect_missing ⟨f, r2, ar, ag, ap⟩ inst.recursive deps st with ⟨st2, rr⟩
    cases rr with
    | error e => rfl
    | ok l =>
      by_cases hl : l.isEmpty
      · simp [hl]
      · simp only [hl, Bool.false_eq_true, if_false]
        exact install_queued_repair_irrelevant f r1 r2 ar ag ap cd l st2
  · intro inst denv st deps cd hall
    have hc := collect_missing_all_found denv inst.recursive deps st hall
    unfold install_dependencies
    rcases hcm : collect_missing denv inst.recursive deps st with ⟨st2, r2⟩
    rw [hcm] at hc
    simp only at hc
    subst hc
    simp

/-- C9 (witness): the repair invocation, result-independence and
success-despite-failing-repair at a concrete dependency set. -/
theorem C9_witness :
    Ev.repairDeps "foo" ∈ (install_dependencies instRecursive denvFound1 st0
        [("foo", reqReg)] "/cur").1.trace
    ∧ install_dependencies instDefault
        ⟨fun _ _ => FindOutcome.found mFoo, fun _ => false,
         fun _ => Except.ok true, fun _ => Except.ok true,
         fun _ => Except.ok true⟩ st0 [("foo", reqReg)] "/cur"
      = install_dependencies instDefault
        ⟨fun _ _ => FindOutcome.found mFoo, fun _ => true,
         fun _ => Except.ok true, fun _ => Except.ok true,
         fun _ => Except.ok true⟩ st0 [("foo", reqReg)] "/cur"
    ∧ (install_dependencies instRecursive denvFound1 st0 [("foo", reqReg)]
        "/cur").2 = Except.ok true :=
  ⟨C9_repair_discarded.1 instRecursive denvFound1 st0 [("foo", reqReg)] "/cur"
      "foo" reqReg mFoo rfl (List.mem_cons_self _ _) rfl
      (fun _ _ _ h => nomatch h),
   C9_repair_discarded.2.1 instDefault (fun _ _ => FindOutcome.found mFoo)
      (fun _ => false) (fun _ => true) (fun _ => Except.ok true)
      (fun _ => Except.ok true) (fun _ => Except.ok true) st0
      [("foo", reqReg)] "/cur",
   C9_repair_discarded.2.2 instRecursive denvFound1 st0 [("foo", reqReg)]
      "/cur" (fun _ _ => ⟨mFoo, rfl⟩)⟩

/-- C10: `walk_package_files` always yields the package manifest file when
the walk produces it, whatever the include and exclude configuration — an
include list that does not match it, or an exclude pattern that does, never
filters it out. -/
theorem C10_manifest_always_yielded (inc : Option (List String))
    (exc : List String) (gi : Option (List String)) (files : List String)
    (h : PACKAGE_MANIFEST ∈ files) :
    PACKAGE_MANIFEST ∈ walk_package_files inc exc gi files := by
  unfold walk_package_files
  exact List.mem_filter.mpr ⟨h, by simp⟩

/-- C10 (witness): the manifest is yielded even under an include list that
does not match it and gitignore rules that do. -/
theorem C10_witness :
    PACKAGE_MANIFEST ∈ walk_package_files (some ["src/*"]) ["*.json"]
      (some ["nodepy.json"]) ["docs/readme.md", "nodepy.json"] :=
  C10_manifest_always_yielded (some ["src/*"]) ["*.json"]
    (some ["nodepy.json"]) ["docs/readme.md", "nodepy.json"] (by decide)

end NodepyPm
